import Mathlib

/-!
Shallow embedding of the brandai authentication / credential subsystem
(src/api/v1/utils/encryption.py, src/api/v1/services/auth.py,
src/api/v1/services/github.py) and proofs of the frozen claims.

Bytes are modelled as natural numbers below 256; byte strings as
`List Nat`.  Fallible Python code is modelled with `Except` / `Option`.
-/

/- ===================== encryption.py ===================== -/

/-- Model of the PBKDF2HMAC-SHA256 key derivation performed by
`_get_fernet` (library call): an executable fold of the operator secret
down to a single key value.  The claims under verification depend only on
the derivation being a function of the secret, not on its internals. -/
def deriveKey (secret : List Nat) : Nat :=
  secret.foldl (fun a b => (a * 131 + b) % 256) 7

/-- Keyed byte transform used by the Fernet model (stands for the AES
layer): add the key modulo 256. -/
def shiftByte (k b : Nat) : Nat := (b + k) % 256

/-- Inverse of `shiftByte` on byte values. -/
def unshiftByte (k b : Nat) : Nat := (b + (256 - k % 256)) % 256

/-- Body of a Fernet token in the model: the random nonce byte followed
by the keyed-transformed plaintext bytes (stands for version, timestamp,
IV and AES ciphertext of the real format). -/
def fernetBody (k n : Nat) (pt : List Nat) : List Nat :=
  n % 256 :: pt.map (shiftByte k)

/-- Model of `Fernet.encrypt`: the token body followed by a keyed MAC
over the body.  The MAC is idealized as the injective keyed byte map
`shiftByte k`, mirroring that HMAC-SHA256 authenticates every byte of
the body. -/
def fernetEncrypt (k n : Nat) (pt : List Nat) : List Nat :=
  fernetBody k n pt ++ (fernetBody k n pt).map (shiftByte k)

/-- Model of `Fernet.decrypt`: split the token into body and MAC,
recompute the MAC and compare; on any structural defect or MAC mismatch
return `none` (the library raises `InvalidToken`). -/
def fernetDecrypt (k : Nat) (tok : List Nat) : Option (List Nat) :=
  if tok.length % 2 = 0 ∧ tok.take (tok.length / 2) ≠ [] ∧
      tok.drop (tok.length / 2) = (tok.take (tok.length / 2)).map (shiftByte k)
  then some (((tok.take (tok.length / 2)).drop 1).map (unshiftByte k))
  else none

/-- ASCII code of the hex digit of a nibble value. -/
def hexDig (d : Nat) : Nat := if d < 10 then 48 + d else 87 + d

/-- Strict inverse of `hexDig`: value of one hex character, `none` for
characters outside the encoding alphabet. -/
def hexVal (c : Nat) : Option Nat :=
  if 48 ≤ c ∧ c ≤ 57 then some (c - 48)
  else if 97 ≤ c ∧ c ≤ 102 then some (c - 87)
  else none

/-- Model of `base64.urlsafe_b64encode` as used by `encrypt_token`: an
injective printable encoding of a byte sequence (two encoding characters
per byte). -/
def b64encode : List Nat → List Nat
  | [] => []
  | b :: bs => hexDig (b / 16) :: hexDig (b % 16) :: b64encode bs

/-- Model of `base64.urlsafe_b64decode` as used by `decrypt_token`:
strict decoder of `b64encode`, failing on any character outside the
alphabet or on an odd-length input. -/
def b64decode : List Nat → Option (List Nat)
  | [] => some []
  | c1 :: c2 :: cs =>
    match hexVal c1, hexVal c2, b64decode cs with
    | some h, some l, some bs => some ((h * 16 + l) :: bs)
    | _, _, _ => none
  | [_] => none

/-- Error outcomes of the token cipher layer. -/
inductive CryptoError where
  | keyNotSet
  | decryptFailed
deriving DecidableEq

/-- Embedding of `encrypt_token` (encryption.py line 44): fails when
`ENCRYPTION_KEY` is unset, otherwise base64-encodes the Fernet
encryption of the plaintext.  `nonce` models the random IV drawn by the
library on each call. -/
def encrypt_token (secret : List Nat) (nonce : Nat) (pt : List Nat) :
    Except CryptoError (List Nat) :=
  if secret = [] then .error .keyNotSet
  else .ok (b64encode (fernetEncrypt (deriveKey secret) nonce pt))

/-- Embedding of `decrypt_token` (encryption.py line 61): fails when the
key is unset, when the printable decoding fails, or when Fernet
decryption fails. -/
def decrypt_token (secret : List Nat) (ct : List Nat) :
    Except CryptoError (List Nat) :=
  if secret = [] then .error .keyNotSet
  else
    match b64decode ct with
    | none => .error .decryptFailed
    | some tok =>
      match fernetDecrypt (deriveKey secret) tok with
      | none => .error .decryptFailed
      | some pt => .ok pt

/- ===================== services/auth.py : JWT ===================== -/

/-- Session token claims (auth.py line 367): subject, expiry, issued-at.
Times are seconds since the epoch. -/
structure JwtClaims where
  sub : Nat
  exp : Nat
  iat : Nat
deriving DecidableEq

/-- Model of the HMAC signature the jwt library computes over the claims:
an executable keyed fold of the secret and the claim values. -/
def jwtSig (secret : List Nat) (c : JwtClaims) : Nat :=
  secret.foldl (fun a b => (a * 131 + b) % 65536) (c.sub * 7 + c.exp * 3 + c.iat)

/-- A signed session token: claims plus signature. -/
structure JwtToken where
  claims : JwtClaims
  sig : Nat
deriving DecidableEq

/-- Error outcomes of the auth service, each standing for the
HTTPException the Python code raises. -/
inductive AuthError where
  | config500
  | badRequest400
  | gateway502
  | expired401
  | invalid401
  | timeout408
  | encryptionError
  | dbError
deriving DecidableEq

/-- Embedding of `AuthService.generate_jwt_token` (auth.py line 353):
fails when `JWT_SECRET_KEY` is unset; otherwise signs claims with
subject = user id, expiry = now + JWT_EXPIRATION_HOURS, issued-at = now.
The two `datetime.utcnow()` reads are modelled as the single instant
`now`. -/
def generate_jwt_token (jwtSecret : List Nat) (expirationHours : Nat)
    (now : Nat) (userId : Nat) : Except AuthError JwtToken :=
  if jwtSecret = [] then .error .config500
  else
    .ok { claims := { sub := userId,
                      exp := now + expirationHours * 3600,
                      iat := now },
          sig := jwtSig jwtSecret
                   { sub := userId,
                     exp := now + expirationHours * 3600,
                     iat := now } }

/-- Embedding of `AuthService.verify_jwt_token` (auth.py line 380):
fails when the secret is unset, with `invalid401` on a signature
mismatch, with `expired401` when the expiry has passed. -/
def verify_jwt_token (jwtSecret : List Nat) (now : Nat) (t : JwtToken) :
    Except AuthError JwtClaims :=
  if jwtSecret = [] then .error .config500
  else if t.sig ≠ jwtSig jwtSecret t.claims then .error .invalid401
  else if t.claims.exp < now then .error .expired401
  else .ok t.claims

/- ===================== services/auth.py : OAuth flows ===================== -/

/-- GitHub user profile fields the flows consume (id, login, email). -/
structure GithubProfile where
  id : Nat
  login : String
  email : Option String
deriving DecidableEq

/-- A stored user record (models/user.py), restricted to the fields the
authentication flows read or write; the preference and counter fields of
the document are never touched by the flows under verification. -/
structure StoredUser where
  _id : Nat
  github_id : Nat
  username : String
  email : Option String
  github_access_token : Option (List Nat)
deriving DecidableEq

/-- Embedding of `User.find_by_github_id`: first stored record with the
given provider subject id. -/
def find_by_github_id (store : List StoredUser) (gid : Nat) : Option StoredUser :=
  store.find? (fun u => u.github_id == gid)

/-- Embedding of the update branch of `User.save`: replace the record
with the same local id. -/
def saveUpdate (store : List StoredUser) (u : StoredUser) : List StoredUser :=
  store.map (fun v => if v._id == u._id then u else v)

/-- Embedding of the insert branch of `User.save`: append the new record
(the store assigns the fresh id passed in by the environment). -/
def saveInsert (store : List StoredUser) (u : StoredUser) : List StoredUser :=
  store ++ [u]

/-- Outcome of the token-exchange / device-token POST, after
`raise_for_status` and JSON decoding. -/
inductive TokenExchangeResp where
  | netError
  | errorField (code : String)
  | missingToken
  | token (t : List Nat)
deriving DecidableEq

/-- The caller-visible result of a completed flow: session token plus
public user summary. -/
structure SessionIssued where
  access_token : JwtToken
  expires_in : Nat
  userId : Nat
  github_id : Nat
  username : String
  email : Option String
deriving DecidableEq

/-- The user-creation / token-persistence / session-issuance tail shared
verbatim by `handle_github_callback` (auth.py lines 130-175) and
`verify_device_code` (auth.py lines 299-337): encrypt the provider
token, upsert the user record keyed by github id, then issue the JWT.
`saveFails` injects a storage failure at the save point (the
DuplicateKeyError race re-raised as ValueError). -/
def githubLoginUpsert (encKey : List Nat) (nonce : Nat) (jwtSecret : List Nat)
    (hours now freshId : Nat) (saveFails : Bool) (store : List StoredUser)
    (accessToken : List Nat) (profile : GithubProfile) :
    Except AuthError SessionIssued × List StoredUser :=
  match encrypt_token encKey nonce accessToken with
  | .error _ => (.error .encryptionError, store)
  | .ok encTok =>
    if saveFails then (.error .dbError, store)
    else
      let user : StoredUser :=
        match find_by_github_id store profile.id with
        | some u =>
          { u with username := profile.login, email := profile.email,
                   github_access_token := some encTok }
        | none =>
          { _id := freshId, github_id := profile.id, username := profile.login,
            email := profile.email, github_access_token := some encTok }
      let store' :=
        match find_by_github_id store profile.id with
        | some _ => saveUpdate store user
        | none => saveInsert store user
      match generate_jwt_token jwtSecret hours now user._id with
      | .error e => (.error e, store')
      | .ok t =>
        (.ok { access_token := t, expires_in := hours * 3600, userId := user._id,
               github_id := user.github_id, username := user.username,
               email := user.email }, store')

/-- Environment of one `handle_github_callback` call: configuration,
scripted provider behaviour, store state and injected failure points. -/
structure CallbackEnv where
  github_client_id_set : Bool
  github_client_secret_set : Bool
  tokenExchange : String → TokenExchangeResp
  userFetch : List Nat → Except Unit GithubProfile
  encryption_key : List Nat
  encNonce : Nat
  jwt_secret : List Nat
  jwt_expiration_hours : Nat
  now : Nat
  freshId : Nat
  saveFails : Bool
  store : List StoredUser

/-- Embedding of `AuthService.handle_github_callback` (auth.py line 63):
configuration check, code-for-token exchange, profile fetch, then the
shared upsert / session tail.  Returns the result together with the
final store state. -/
def handle_github_callback (env : CallbackEnv) (code : String)
    (state : Option String) : Except AuthError SessionIssued × List StoredUser :=
  if ¬ env.github_client_id_set ∨ ¬ env.github_client_secret_set then
    (.error .config500, env.store)
  else
    match env.tokenExchange code with
    | .netError => (.error .gateway502, env.store)
    | .errorField _ => (.error .badRequest400, env.store)
    | .missingToken => (.error .badRequest400, env.store)
    | .token t =>
      match env.userFetch t with
      | .error _ => (.error .gateway502, env.store)
      | .ok profile =>
        githubLoginUpsert env.encryption_key env.encNonce env.jwt_secret
          env.jwt_expiration_hours env.now env.freshId env.saveFails env.store
          t profile

/-- One polling response of the device-token endpoint, as interpreted by
`verify_device_code`. -/
inductive DevicePollResp where
  | netError
  | errPending
  | errSlowDown
  | errExpired
  | errOther (code : String)
  | missingToken
  | token (t : List Nat)
deriving DecidableEq

/-- Environment of one `verify_device_code` call; `script n` is the
provider response to the n-th poll (0-based). -/
structure DeviceEnv where
  github_device_client_id_set : Bool
  github_client_secret_set : Bool
  script : Nat → DevicePollResp
  userFetch : List Nat → Except Unit GithubProfile
  encryption_key : List Nat
  encNonce : Nat
  jwt_secret : List Nat
  jwt_expiration_hours : Nat
  now : Nat
  freshId : Nat
  saveFails : Bool
  store : List StoredUser

/-- Trace of one `verify_device_code` call: outcome, final store, the
sleep durations in order, and the number of polls issued. -/
structure DeviceResult where
  result : Except AuthError SessionIssued
  store : List StoredUser
  sleeps : List Nat
  polls : Nat

/-- The poll attempt bound hard-coded in `verify_device_code`. -/
def max_attempts : Nat := 20

/-- The initial poll interval hard-coded in `verify_device_code`. -/
def initial_interval : Nat := 5

/-- The polling loop of `verify_device_code` (auth.py lines 243-346):
`authorization_pending` sleeps the current interval and retries;
`slow_down` adds 5 to the interval, sleeps and retries; `expired_token`,
other error codes and a missing access token fail with 400; a transport
error fails with 502; a token leads into the shared upsert tail.  `fuel`
is the number of loop iterations remaining. -/
def devicePollLoop (env : DeviceEnv) :
    Nat → Nat → Nat → Nat → List Nat → DeviceResult
  | 0, _, _, polls, sleeps =>
    { result := .error .timeout408, store := env.store, sleeps := sleeps,
      polls := polls }
  | fuel + 1, attempt, interval, polls, sleeps =>
    match env.script attempt with
    | .netError =>
      { result := .error .gateway502, store := env.store, sleeps := sleeps,
        polls := polls + 1 }
    | .errPending =>
      devicePollLoop env fuel (attempt + 1) interval (polls + 1)
        (sleeps ++ [interval])
    | .errSlowDown =>
      devicePollLoop env fuel (attempt + 1) (interval + 5) (polls + 1)
        (sleeps ++ [interval + 5])
    | .errExpired =>
      { result := .error .badRequest400, store := env.store, sleeps := sleeps,
        polls := polls + 1 }
    | .errOther _ =>
      { result := .error .badRequest400, store := env.store, sleeps := sleeps,
        polls := polls + 1 }
    | .missingToken =>
      { result := .error .badRequest400, store := env.store, sleeps := sleeps,
        polls := polls + 1 }
    | .token t =>
      match env.userFetch t with
      | .error _ =>
        { result := .error .gateway502, store := env.store, sleeps := sleeps,
          polls := polls + 1 }
      | .ok profile =>
        let out := githubLoginUpsert env.encryption_key env.encNonce
          env.jwt_secret env.jwt_expiration_hours env.now env.freshId
          env.saveFails env.store t profile
        { result := out.1, store := out.2, sleeps := sleeps, polls := polls + 1 }

/-- Embedding of `AuthService.verify_device_code` (auth.py line 239):
configuration check, then at most 20 polls starting at interval 5; loop
exhaustion fails with 408 (request timeout).  The device and user code
arguments are carried opaquely inside the scripted provider. -/
def verify_device_code (env : DeviceEnv) : DeviceResult :=
  if ¬ env.github_device_client_id_set ∨ ¬ env.github_client_secret_set then
    { result := .error .config500, store := env.store, sleeps := [], polls := 0 }
  else
    devicePollLoop env max_attempts 0 initial_interval 0 []

/-- Concrete device-flow environment: pending on the first three polls,
then success. -/
def deviceEnvPending3 : DeviceEnv :=
  { github_device_client_id_set := true
    github_client_secret_set := true
    script := fun n => if n = 3 then .token [7] else .errPending
    userFetch := fun _ => .ok { id := 42, login := "alice", email := none }
    encryption_key := [1]
    encNonce := 0
    jwt_secret := [2]
    jwt_expiration_hours := 24
    now := 1000
    freshId := 1
    saveFails := false
    store := [] }

/-- Concrete device-flow environment: slow_down once, then success. -/
def deviceEnvSlowOnce : DeviceEnv :=
  { github_device_client_id_set := true
    github_client_secret_set := true
    script := fun n => if n = 0 then .errSlowDown else .token [7]
    userFetch := fun _ => .ok { id := 42, login := "alice", email := none }
    encryption_key := [1]
    encNonce := 0
    jwt_secret := [2]
    jwt_expiration_hours := 24
    now := 1000
    freshId := 1
    saveFails := false
    store := [] }

/-- Concrete device-flow environment: every poll answers pending. -/
def deviceEnvAllPending : DeviceEnv :=
  { github_device_client_id_set := true
    github_client_secret_set := true
    script := fun _ => .errPending
    userFetch := fun _ => .ok { id := 42, login := "alice", email := none }
    encryption_key := [1]
    encNonce := 0
    jwt_secret := [2]
    jwt_expiration_hours := 24
    now := 1000
    freshId := 1
    saveFails := false
    store := [] }

/- ===================== services/github.py ===================== -/

/-- A repository as returned by the repository listing; only the
`full_name` key is consumed by the fan-out loops. -/
structure RepoInfo where
  full_name : String
deriving DecidableEq

/-- A commit item: identity plus the `commit.author.date` timestamp the
aggregation sorts on. -/
structure Commit where
  sha : Nat
  date : Nat
deriving DecidableEq

/-- A pull request item: identity plus the `updated_at` timestamp the
aggregation sorts on. -/
structure PullRequest where
  number : Nat
  updated_at : Nat
deriving DecidableEq

/-- Errors of the aggregation layer: token decryption failure or an
upstream provider failure outside any per-repository try block. -/
inductive AggError where
  | cryptoError
  | upstream
deriving DecidableEq

/-- Embedding of `GitHubService._get_all_pages` (github.py line 88):
fetch pages starting at 1 while `page ≤ max_pages`, at fixed page size
100; stop on an empty page or a short page.  `script page` is the page
the endpoint returns; the result records the fetched items and the list
of page numbers actually requested.  `fuel` is the number of remaining
iterations permitted by the `page ≤ max_pages` guard. -/
def get_all_pages_loop {α : Type} [DecidableEq α] (script : Nat → List α)
    (per_page : Nat) : Nat → Nat → List α × List Nat
  | _, 0 => ([], [])
  | page, fuel + 1 =>
    let items := script page
    if items = [] then ([], [page])
    else if items.length < per_page then (items, [page])
    else
      let rest := get_all_pages_loop script per_page (page + 1) fuel
      (items ++ rest.1, page :: rest.2)

/-- `_get_all_pages` proper: start at page 1 with the provider maximum
page size of 100. -/
def get_all_pages {α : Type} [DecidableEq α] (script : Nat → List α)
    (max_pages : Nat) : List α × List Nat :=
  get_all_pages_loop script 100 1 max_pages

/-- The per-repository try/except accumulation loop shared by the
cross-repository branches of `get_commits`, `get_pull_requests` and
`get_issues`: a failed fetch is skipped, a successful fetch is appended. -/
def collectRepoResults {α : Type} (fetch : String → Except Unit (List α))
    (repos : List RepoInfo) : List α :=
  repos.foldl
    (fun acc r =>
      match fetch r.full_name with
      | .error _ => acc
      | .ok items => acc ++ items)
    []

/-- Python `list.sort(key=..., reverse=True)`: stable sort descending by
the key. -/
def sortDescBy {α : Type} (key : α → Nat) (l : List α) : List α :=
  l.insertionSort (fun a b => key b ≤ key a)

/-- Embedding of the `repo is None` branch of `GitHubService.get_commits`
(github.py lines 447-483): decrypt the stored token, list the user
repositories (page 1, per_page 100), fetch each repository's commits
inside try/except, merge, sort descending by commit date, then slice the
requested page window. -/
def get_commits_all_repos (secret encTok : List Nat)
    (reposResp : Except Unit (List RepoInfo))
    (fetchRepoCommits : String → Except Unit (List Commit))
    (page per_page : Nat) : Except AggError (List Commit) :=
  match decrypt_token secret encTok with
  | .error _ => .error .cryptoError
  | .ok _token =>
    match reposResp with
    | .error _ => .error .upstream
    | .ok repos =>
      let sorted := sortDescBy (fun c => c.date)
        (collectRepoResults fetchRepoCommits repos)
      .ok ((sorted.drop ((page - 1) * per_page)).take per_page)

/-- Embedding of the `repo is None` branch of
`GitHubService.get_pull_requests` (github.py lines 282-317): same
fan-out shape as `get_commits_all_repos`, sorted descending by
`updated_at`. -/
def get_pull_requests_all_repos (secret encTok : List Nat)
    (reposResp : Except Unit (List RepoInfo))
    (fetchRepoPRs : String → Except Unit (List PullRequest))
    (page per_page : Nat) : Except AggError (List PullRequest) :=
  match decrypt_token secret encTok with
  | .error _ => .error .cryptoError
  | .ok _token =>
    match reposResp with
    | .error _ => .error .upstream
    | .ok repos =>
      let sorted := sortDescBy (fun p => p.updated_at)
        (collectRepoResults fetchRepoPRs repos)
      .ok ((sorted.drop ((page - 1) * per_page)).take per_page)

/-- Concrete callback environment in which every step succeeds. -/
def callbackEnvOk : CallbackEnv :=
  { github_client_id_set := true
    github_client_secret_set := true
    tokenExchange := fun _ => .token [7]
    userFetch := fun _ => .ok { id := 42, login := "alice", email := none }
    encryption_key := [1]
    encNonce := 0
    jwt_secret := [2]
    jwt_expiration_hours := 24
    now := 1000
    freshId := 1
    saveFails := false
    store := [] }

/-- The session `callbackEnvOk` produces for any code. -/
def sessionC9 : SessionIssued :=
  { access_token :=
      { claims := { sub := 1, exp := 1000 + 24 * 3600, iat := 1000 },
        sig := jwtSig [2] { sub := 1, exp := 1000 + 24 * 3600, iat := 1000 } },
    expires_in := 24 * 3600, userId := 1, github_id := 42,
    username := "alice", email := none }

/-- Concrete encrypted token used by aggregation witnesses: encryption
of the one-byte provider token `[5]` under secret `[1]`. -/
def encTokC7 : List Nat := b64encode (fernetEncrypt (deriveKey [1]) 0 [5])

/-- Concrete per-repository commit fetcher: repository "b" fails with a
network error, the others succeed. -/
def fetchC7 : String → Except Unit (List Commit) :=
  fun s =>
    if s = "a" then .ok [{ sha := 1, date := 10 }]
    else if s = "b" then .error ()
    else .ok [{ sha := 2, date := 20 }]

/-- Concrete per-repository pull-request fetcher whose two repositories
report the same `updated_at` timestamp. -/
def fetchTie : String → Except Unit (List PullRequest) :=
  fun s =>
    if s = "a" then .ok [{ number := 1, updated_at := 50 }]
    else .ok [{ number := 2, updated_at := 50 }]

/-- Concrete per-repository pull-request fetcher with pairwise distinct
`updated_at` timestamps. -/
def fetchDistinct : String → Except Unit (List PullRequest) :=
  fun s =>
    if s = "a" then .ok [{ number := 1, updated_at := 60 }]
    else .ok [{ number := 2, updated_at := 50 }]

/- ===================== helper lemmas ===================== -/

theorem unshiftByte_shiftByte (k : Nat) {b : Nat} (hb : b < 256) :
    unshiftByte k (shiftByte k b) = b := by
  unfold unshiftByte shiftByte
  omega

theorem shiftByte_lt (k b : Nat) : shiftByte k b < 256 := by
  unfold shiftByte; omega

theorem shiftByte_inj (k : Nat) {a b : Nat} (ha : a < 256) (hb : b < 256)
    (h : shiftByte k a = shiftByte k b) : a = b := by
  unfold shiftByte at h
  omega

theorem fernetBody_bytes {k n : Nat} {pt : List Nat}
    (_hpt : ∀ b ∈ pt, b < 256) : ∀ b ∈ fernetBody k n pt, b < 256 := by
  intro b hb
  unfold fernetBody at hb
  rcases List.mem_cons.mp hb with h | h
  · subst h; omega
  · rcases List.mem_map.mp h with ⟨a, _, rfl⟩
    exact shiftByte_lt k a

theorem fernetEncrypt_bytes {k n : Nat} {pt : List Nat}
    (hpt : ∀ b ∈ pt, b < 256) : ∀ b ∈ fernetEncrypt k n pt, b < 256 := by
  intro b hb
  unfold fernetEncrypt at hb
  rcases List.mem_append.mp hb with h | h
  · exact fernetBody_bytes hpt b h
  · rcases List.mem_map.mp h with ⟨a, _, rfl⟩
    exact shiftByte_lt k a

theorem fernetDecrypt_fernetEncrypt (k n : Nat) {pt : List Nat}
    (hpt : ∀ b ∈ pt, b < 256) :
    fernetDecrypt k (fernetEncrypt k n pt) = some pt := by
  have hlen : (fernetBody k n pt).length = pt.length + 1 := by
    simp [fernetBody]
  have hmaplen : ((fernetBody k n pt).map (shiftByte k)).length = pt.length + 1 := by
    simp [hlen]
  have htotal : (fernetEncrypt k n pt).length = 2 * (pt.length + 1) := by
    simp [fernetEncrypt, hlen, hmaplen]; omega
  have hhalf : (fernetEncrypt k n pt).length / 2 = pt.length + 1 := by
    rw [htotal]; omega
  have htake : (fernetEncrypt k n pt).take (pt.length + 1) = fernetBody k n pt := by
    unfold fernetEncrypt
    rw [← hlen, List.take_left]
  have hdrop : (fernetEncrypt k n pt).drop (pt.length + 1) =
      (fernetBody k n pt).map (shiftByte k) := by
    unfold fernetEncrypt
    rw [← hlen, List.drop_left]
  unfold fernetDecrypt
  rw [hhalf, htake, hdrop]
  have hbody_ne : fernetBody k n pt ≠ [] := by simp [fernetBody]
  rw [if_pos ⟨by rw [htotal]; omega, hbody_ne, rfl⟩]
  have hdrop1 : (fernetBody k n pt).drop 1 = pt.map (shiftByte k) := by
    simp [fernetBody]
  rw [hdrop1, List.map_map]
  congr 1
  have : ∀ b ∈ pt, (unshiftByte k ∘ shiftByte k) b = id b := by
    intro b hb
    simp [Function.comp, unshiftByte_shiftByte k (hpt b hb)]
  calc pt.map (unshiftByte k ∘ shiftByte k) = pt.map id := List.map_congr_left this
    _ = pt := List.map_id pt

theorem hexVal_hexDig {d : Nat} (hd : d < 16) : hexVal (hexDig d) = some d := by
  by_cases h : d < 10
  · have he : hexDig d = 48 + d := if_pos h
    rw [he]
    unfold hexVal
    rw [if_pos (by omega)]
    congr 1
    omega
  · have he : hexDig d = 87 + d := if_neg h
    rw [he]
    unfold hexVal
    rw [if_neg (by omega), if_pos (by omega)]
    congr 1
    omega

theorem hexVal_some {c v : Nat} (h : hexVal c = some v) :
    v < 16 ∧ hexDig v = c := by
  unfold hexVal at h
  split_ifs at h with h1 h2
  · have hv : c - 48 = v := by injection h
    refine ⟨by omega, ?_⟩
    unfold hexDig
    rw [if_pos (by omega)]
    omega
  · have hv : c - 87 = v := by injection h
    refine ⟨by omega, ?_⟩
    unfold hexDig
    rw [if_neg (by omega)]
    omega

theorem b64decode_b64encode {l : List Nat} (hl : ∀ b ∈ l, b < 256) :
    b64decode (b64encode l) = some l := by
  induction l with
  | nil => simp [b64encode, b64decode]
  | cons b bs ih =>
    have hb : b < 256 := hl b (List.mem_cons_self b bs)
    have hbs : ∀ x ∈ bs, x < 256 := fun x hx => hl x (List.mem_cons_of_mem b hx)
    have h1 : hexVal (hexDig (b / 16)) = some (b / 16) := hexVal_hexDig (by omega)
    have h2 : hexVal (hexDig (b % 16)) = some (b % 16) := hexVal_hexDig (by omega)
    have hbeq : b / 16 * 16 + b % 16 = b := by omega
    simp only [b64encode, b64decode, h1, h2, ih hbs, hbeq]

theorem listGetD_set_self {l : List Nat} {i b : Nat} (h : i < l.length) :
    (l.set i b).getD i 0 = b := by
  simp [List.getD_eq_getElem?_getD, List.getElem?_set_self, h]

theorem listGetD_append_left {l1 l2 : List Nat} {i : Nat} (h : i < l1.length) :
    (l1 ++ l2).getD i 0 = l1.getD i 0 := by
  simp [List.getD_eq_getElem?_getD, List.getElem?_append_left h]

theorem listGetD_append_right {l1 l2 : List Nat} {i : Nat} (h : l1.length ≤ i) :
    (l1 ++ l2).getD i 0 = l2.getD (i - l1.length) 0 := by
  simp [List.getD_eq_getElem?_getD, List.getElem?_append_right h]

theorem listGetD_map {l : List Nat} {f : Nat → Nat} {i : Nat} (h : i < l.length) :
    (l.map f).getD i 0 = f (l.getD i 0) := by
  simp [List.getD_eq_getElem?_getD, List.getElem?_map, List.getElem?_eq_getElem h]

theorem listGetD_mem {l : List Nat} {i : Nat} (h : i < l.length) : l.getD i 0 ∈ l := by
  rw [List.getD_eq_getElem _ _ h]
  exact List.getElem_mem h

theorem b64encode_length (l : List Nat) : (b64encode l).length = 2 * l.length := by
  induction l with
  | nil => simp [b64encode]
  | cons b bs ih => simp [b64encode, ih]; omega

theorem b64decode_set {tok : List Nat} (htok : ∀ x ∈ tok, x < 256) :
    ∀ i b : Nat, i < (b64encode tok).length → b ≠ (b64encode tok).getD i 0 →
      b64decode ((b64encode tok).set i b) = none ∨
      ∃ nb, nb < 256 ∧ nb ≠ tok.getD (i / 2) 0 ∧
        b64decode ((b64encode tok).set i b) = some (tok.set (i / 2) nb) := by
  induction tok with
  | nil =>
    intro i b hi _
    simp [b64encode] at hi
  | cons t ts ih =>
    intro i b hi hb
    have ht : t < 256 := htok t (List.mem_cons_self t ts)
    have hts : ∀ x ∈ ts, x < 256 := fun x hx => htok x (List.mem_cons_of_mem t hx)
    have hd1 : hexVal (hexDig (t / 16)) = some (t / 16) := hexVal_hexDig (by omega)
    have hd2 : hexVal (hexDig (t % 16)) = some (t % 16) := hexVal_hexDig (by omega)
    match i with
    | 0 =>
      simp only [b64encode, List.getD_cons_zero] at hb
      cases hv : hexVal b with
      | none =>
        left
        simp [b64encode, b64decode, hv]
      | some h =>
        right
        obtain ⟨hh, hbe⟩ := hexVal_some hv
        have hne' : h ≠ t / 16 := by
          intro he
          exact hb (by rw [← hbe, he])
        refine ⟨h * 16 + t % 16, by omega, ?_, ?_⟩
        · simp only [Nat.zero_div, List.getD_cons_zero]
          omega
        · simp [b64encode, b64decode, hv, hd2, b64decode_b64encode hts]
    | 1 =>
      simp only [b64encode, List.getD_cons_succ, List.getD_cons_zero] at hb
      cases hv : hexVal b with
      | none =>
        left
        simp [b64encode, b64decode, hv]
      | some l =>
        right
        obtain ⟨hl, hbe⟩ := hexVal_some hv
        have hne' : l ≠ t % 16 := by
          intro he
          exact hb (by rw [← hbe, he])
        refine ⟨t / 16 * 16 + l, by omega, ?_, ?_⟩
        · have h12 : (1 : Nat) / 2 = 0 := rfl
          rw [h12, List.getD_cons_zero]
          omega
        · simp [b64encode, b64decode, hv, hd1, b64decode_b64encode hts]
    | j + 2 =>
      simp only [b64encode, List.getD_cons_succ] at hb
      simp only [b64encode, List.length_cons] at hi
      have hj : j < (b64encode ts).length := by omega
      rcases ih hts j b hj hb with hnone | ⟨nb, hnb, hnbne, hsome⟩
      · left
        simp [b64encode, b64decode, hd1, hd2, hnone]
      · right
        refine ⟨nb, hnb, ?_, ?_⟩
        · have : (j + 2) / 2 = j / 2 + 1 := by omega
          rw [this, List.getD_cons_succ]
          exact hnbne
        · have h2 : (j + 2) / 2 = j / 2 + 1 := by omega
          have hteq : t / 16 * 16 + t % 16 = t := by omega
          simp [b64encode, b64decode, hd1, hd2, hsome, h2, hteq]

theorem fernetDecrypt_set (k n : Nat) {pt : List Nat} (hpt : ∀ b ∈ pt, b < 256)
    {j nb : Nat} (hnb : nb < 256) (hj : j < (fernetEncrypt k n pt).length)
    (hne : nb ≠ (fernetEncrypt k n pt).getD j 0) :
    fernetDecrypt k ((fernetEncrypt k n pt).set j nb) = none := by
  have henc : fernetEncrypt k n pt =
      fernetBody k n pt ++ (fernetBody k n pt).map (shiftByte k) := rfl
  have hm : (fernetBody k n pt).length = pt.length + 1 := by simp [fernetBody]
  have hmap : ((fernetBody k n pt).map (shiftByte k)).length = pt.length + 1 := by
    simp [hm]
  have htot : (fernetEncrypt k n pt).length = 2 * (pt.length + 1) := by
    rw [henc, List.length_append, hm, hmap]; omega
  rcases Nat.lt_or_ge j (pt.length + 1) with hjm | hjm
  · -- flipped byte lies in the token body
    have hjb : j < (fernetBody k n pt).length := by omega
    have hset : (fernetEncrypt k n pt).set j nb =
        (fernetBody k n pt).set j nb ++ (fernetBody k n pt).map (shiftByte k) := by
      rw [henc, List.set_append_left _ _ hjb]
    have hsetlen : ((fernetBody k n pt).set j nb).length = pt.length + 1 := by
      rw [List.length_set _ _ _, hm]
    have hlen' : ((fernetEncrypt k n pt).set j nb).length = 2 * (pt.length + 1) := by
      rw [List.length_set _ _ _, htot]
    have hhalf : ((fernetEncrypt k n pt).set j nb).length / 2 = pt.length + 1 := by
      rw [hlen']; omega
    have htake : ((fernetEncrypt k n pt).set j nb).take (pt.length + 1) =
        (fernetBody k n pt).set j nb := by
      rw [hset, ← hsetlen, List.take_left]
    have hdrop : ((fernetEncrypt k n pt).set j nb).drop (pt.length + 1) =
        (fernetBody k n pt).map (shiftByte k) := by
      rw [hset, ← hsetlen, List.drop_left]
    unfold fernetDecrypt
    rw [hhalf, htake, hdrop]
    rw [if_neg]
    rintro ⟨-, -, heq⟩
    rw [List.map_set] at heq
    have hL := listGetD_map (f := shiftByte k) hjb
    have hR : (((fernetBody k n pt).map (shiftByte k)).set j (shiftByte k nb)).getD j 0
        = shiftByte k nb := listGetD_set_self (by omega)
    rw [heq] at hL
    rw [hR] at hL
    have hmem : (fernetBody k n pt).getD j 0 ∈ fernetBody k n pt := listGetD_mem hjb
    have hblt : (fernetBody k n pt).getD j 0 < 256 := fernetBody_bytes hpt _ hmem
    have : nb = (fernetBody k n pt).getD j 0 := shiftByte_inj k hnb hblt hL
    apply hne
    rw [henc, listGetD_append_left hjb]
    exact this
  · -- flipped byte lies in the MAC half
    have hjb : (fernetBody k n pt).length ≤ j := by omega
    have hjmap : j - (pt.length + 1) < ((fernetBody k n pt).map (shiftByte k)).length := by
      rw [hmap]; omega
    have hset : (fernetEncrypt k n pt).set j nb =
        fernetBody k n pt ++
          ((fernetBody k n pt).map (shiftByte k)).set (j - (pt.length + 1)) nb := by
      rw [henc, List.set_append_right _ _ hjb, hm]
    have hsetlen : (((fernetBody k n pt).map (shiftByte k)).set (j - (pt.length + 1)) nb).length
        = pt.length + 1 := by
      rw [List.length_set _ _ _, hmap]
    have hlen' : ((fernetEncrypt k n pt).set j nb).length = 2 * (pt.length + 1) := by
      rw [List.length_set _ _ _, htot]
    have hhalf : ((fernetEncrypt k n pt).set j nb).length / 2 = pt.length + 1 := by
      rw [hlen']; omega
    have htake : ((fernetEncrypt k n pt).set j nb).take (pt.length + 1) =
        fernetBody k n pt := by
      rw [hset, ← hm, List.take_left]
    have hdrop : ((fernetEncrypt k n pt).set j nb).drop (pt.length + 1) =
        ((fernetBody k n pt).map (shiftByte k)).set (j - (pt.length + 1)) nb := by
      rw [hset, ← hm, List.drop_left]
    unfold fernetDecrypt
    rw [hhalf, htake, hdrop]
    rw [if_neg]
    rintro ⟨-, -, heq⟩
    have hL : (((fernetBody k n pt).map (shiftByte k)).set (j - (pt.length + 1)) nb).getD
        (j - (pt.length + 1)) 0 = nb := listGetD_set_self hjmap
    rw [heq] at hL
    apply hne
    rw [henc, listGetD_append_right (by omega), hm]
    exact hL.symm

/-- C1: with a configured encryption key, decrypting any encryption of a
plaintext token returns the token unchanged; encryptions of the same
token under different random nonces produce different ciphertexts, yet
each decrypts back to the same token. -/
theorem C1_encrypt_decrypt_roundtrip (secret : List Nat) (n1 n2 : Nat) (pt : List Nat)
    (hsec : secret ≠ []) (hpt : ∀ b ∈ pt, b < 256) (hn : n1 % 256 ≠ n2 % 256) :
    (∃ ct, encrypt_token secret n1 pt = .ok ct ∧ decrypt_token secret ct = .ok pt) ∧
    encrypt_token secret n1 pt ≠ encrypt_token secret n2 pt := by
  constructor
  · refine ⟨b64encode (fernetEncrypt (deriveKey secret) n1 pt), ?_, ?_⟩
    · unfold encrypt_token
      rw [if_neg hsec]
    · unfold decrypt_token
      rw [if_neg hsec]
      simp only [b64decode_b64encode
          (fernetEncrypt_bytes (k := deriveKey secret) (n := n1) hpt),
        fernetDecrypt_fernetEncrypt (deriveKey secret) n1 hpt]
  · unfold encrypt_token
    rw [if_neg hsec, if_neg hsec]
    intro h
    have henc : b64encode (fernetEncrypt (deriveKey secret) n1 pt) =
        b64encode (fernetEncrypt (deriveKey secret) n2 pt) := by
      injection h
    have hdec := b64decode_b64encode
      (fernetEncrypt_bytes (k := deriveKey secret) (n := n1) hpt)
    rw [henc, b64decode_b64encode
      (fernetEncrypt_bytes (k := deriveKey secret) (n := n2) hpt)] at hdec
    have htok : fernetEncrypt (deriveKey secret) n2 pt =
        fernetEncrypt (deriveKey secret) n1 pt := by
      injection hdec
    have h1 : fernetEncrypt (deriveKey secret) n1 pt =
        n1 % 256 :: (pt.map (shiftByte (deriveKey secret)) ++
          (fernetBody (deriveKey secret) n1 pt).map (shiftByte (deriveKey secret))) := by
      simp [fernetEncrypt, fernetBody]
    have h2 : fernetEncrypt (deriveKey secret) n2 pt =
        n2 % 256 :: (pt.map (shiftByte (deriveKey secret)) ++
          (fernetBody (deriveKey secret) n2 pt).map (shiftByte (deriveKey secret))) := by
      simp [fernetEncrypt, fernetBody]
    rw [h1, h2] at htok
    have : n2 % 256 = n1 % 256 := by injection htok
    exact hn this.symm

/-- Witness for C1 at a concrete key, nonce pair and plaintext. -/
theorem C1_encrypt_decrypt_roundtrip_witness :
    (∃ ct, encrypt_token [1] 0 [104] = .ok ct ∧ decrypt_token [1] ct = .ok [104]) ∧
    encrypt_token [1] 0 [104] ≠ encrypt_token [1] 1 [104] :=
  C1_encrypt_decrypt_roundtrip [1] 0 1 [104] (by decide) (by decide) (by decide)

/-- C2: flipping any single byte of a ciphertext produced by
`encrypt_token` makes `decrypt_token` fail; it never returns an altered
plaintext. -/
theorem C2_tampered_ciphertext_fails (secret : List Nat) (n : Nat) (pt : List Nat)
    (i b : Nat) (ct : List Nat) (hsec : secret ≠ []) (hpt : ∀ x ∈ pt, x < 256)
    (_hb : b < 256) (hct : encrypt_token secret n pt = .ok ct)
    (hi : i < ct.length) (hne : b ≠ ct.getD i 0) :
    decrypt_token secret (ct.set i b) = .error .decryptFailed := by
  have hct' : ct = b64encode (fernetEncrypt (deriveKey secret) n pt) := by
    unfold encrypt_token at hct
    rw [if_neg hsec] at hct
    injection hct with h
    exact h.symm
  subst hct'
  unfold decrypt_token
  rw [if_neg hsec]
  have hbytes := fernetEncrypt_bytes (k := deriveKey secret) (n := n) hpt
  rcases b64decode_set hbytes i b hi hne with hnone | ⟨nb, hnb, hnbne, hsome⟩
  · simp only [hnone]
  · have hlen2 := b64encode_length (fernetEncrypt (deriveKey secret) n pt)
    have hjlt : i / 2 < (fernetEncrypt (deriveKey secret) n pt).length := by omega
    simp only [hsome, fernetDecrypt_set (deriveKey secret) n hpt hnb hjlt hnbne]

/-- Witness for C2: flipping the first ciphertext byte to 0 at a concrete
key and plaintext makes decryption fail. -/
theorem C2_tampered_ciphertext_fails_witness :
    decrypt_token [1] ((b64encode (fernetEncrypt (deriveKey [1]) 0 [104])).set 0 0) =
      .error .decryptFailed :=
  C2_tampered_ciphertext_fails [1] 0 [104] 0 0
    (b64encode (fernetEncrypt (deriveKey [1]) 0 [104]))
    (by decide) (by decide) (by decide) rfl (by decide) (by decide)

/- ===== device flow loop stepping lemmas ===== -/

theorem devicePollLoop_pending {env : DeviceEnv} {attempt : Nat}
    (h : env.script attempt = .errPending) (fuel interval polls : Nat)
    (sleeps : List Nat) :
    devicePollLoop env (fuel + 1) attempt interval polls sleeps =
      devicePollLoop env fuel (attempt + 1) interval (polls + 1)
        (sleeps ++ [interval]) := by
  simp [devicePollLoop, h]

theorem devicePollLoop_slowdown {env : DeviceEnv} {attempt : Nat}
    (h : env.script attempt = .errSlowDown) (fuel interval polls : Nat)
    (sleeps : List Nat) :
    devicePollLoop env (fuel + 1) attempt interval polls sleeps =
      devicePollLoop env fuel (attempt + 1) (interval + 5) (polls + 1)
        (sleeps ++ [interval + 5]) := by
  simp [devicePollLoop, h]

theorem devicePollLoop_token {env : DeviceEnv} {attempt : Nat} {t : List Nat}
    {profile : GithubProfile} (h : env.script attempt = .token t)
    (hf : env.userFetch t = .ok profile) (fuel interval polls : Nat)
    (sleeps : List Nat) :
    devicePollLoop env (fuel + 1) attempt interval polls sleeps =
      { result := (githubLoginUpsert env.encryption_key env.encNonce
          env.jwt_secret env.jwt_expiration_hours env.now env.freshId
          env.saveFails env.store t profile).1,
        store := (githubLoginUpsert env.encryption_key env.encNonce
          env.jwt_secret env.jwt_expiration_hours env.now env.freshId
          env.saveFails env.store t profile).2,
        sleeps := sleeps, polls := polls + 1 } := by
  simp [devicePollLoop, h, hf]

theorem githubLoginUpsert_ok (encKey : List Nat) (nonce : Nat)
    (jwtSecret : List Nat) (hours now freshId : Nat) (store : List StoredUser)
    (accessToken : List Nat) (profile : GithubProfile)
    (henc : encKey ≠ []) (hjwt : jwtSecret ≠ []) :
    ∃ s store', githubLoginUpsert encKey nonce jwtSecret hours now freshId false
      store accessToken profile = (.ok s, store') := by
  have he : encrypt_token encKey nonce accessToken =
      .ok (b64encode (fernetEncrypt (deriveKey encKey) nonce accessToken)) := by
    unfold encrypt_token
    rw [if_neg henc]
  have hg : ∀ x : Nat, generate_jwt_token jwtSecret hours now x =
      .ok { claims := { sub := x, exp := now + hours * 3600, iat := now },
            sig := jwtSig jwtSecret
              { sub := x, exp := now + hours * 3600, iat := now } } := by
    intro x
    unfold generate_jwt_token
    rw [if_neg hjwt]
  unfold githubLoginUpsert
  simp only [he, Bool.false_eq_true, if_false]
  cases hf : find_by_github_id store profile.id <;>
    simp only [hf, hg] <;> exact ⟨_, _, rfl⟩

theorem devicePollLoop_polls_le (env : DeviceEnv) :
    ∀ fuel attempt interval polls : Nat, ∀ sleeps : List Nat,
      (devicePollLoop env fuel attempt interval polls sleeps).polls ≤ polls + fuel := by
  intro fuel
  induction fuel with
  | zero =>
    intro attempt interval polls sleeps
    simp [devicePollLoop]
  | succ n ih =>
    intro attempt interval polls sleeps
    cases hs : env.script attempt with
    | netError => simp only [devicePollLoop, hs]; omega
    | errPending =>
      rw [devicePollLoop_pending hs n interval polls sleeps]
      exact le_trans (ih (attempt + 1) interval (polls + 1) (sleeps ++ [interval]))
        (by omega)
    | errSlowDown =>
      rw [devicePollLoop_slowdown hs n interval polls sleeps]
      exact le_trans
        (ih (attempt + 1) (interval + 5) (polls + 1) (sleeps ++ [interval + 5]))
        (by omega)
    | errExpired => simp only [devicePollLoop, hs]; omega
    | errOther c => simp only [devicePollLoop, hs]; omega
    | missingToken => simp only [devicePollLoop, hs]; omega
    | token t =>
      cases hf : env.userFetch t with
      | error e => simp only [devicePollLoop, hs, hf]; omega
      | ok profile => simp only [devicePollLoop, hs, hf]; omega

theorem devicePollLoop_all_pending (env : DeviceEnv)
    (hp : ∀ n, env.script n = .errPending) :
    ∀ fuel attempt interval polls : Nat, ∀ sleeps : List Nat,
      devicePollLoop env fuel attempt interval polls sleeps =
        { result := .error .timeout408, store := env.store,
          sleeps := sleeps ++ List.replicate fuel interval,
          polls := polls + fuel } := by
  intro fuel
  induction fuel with
  | zero =>
    intro attempt interval polls sleeps
    simp [devicePollLoop]
  | succ n ih =>
    intro attempt interval polls sleeps
    have hsl : (sleeps ++ [interval]) ++ List.replicate n interval =
        sleeps ++ List.replicate (n + 1) interval := by
      rw [List.append_assoc]
      simp [List.replicate_succ]
    have hpl : polls + 1 + n = polls + (n + 1) := by omega
    rw [devicePollLoop_pending (hp attempt) n interval polls sleeps,
      ih (attempt + 1) interval (polls + 1) (sleeps ++ [interval]), hsl, hpl]

/- ===== C3 ===== -/

/-- C3: with a signing secret configured, verifying a freshly issued
session token succeeds, its subject equals the user id, and its expiry
equals its issued-at plus the configured hour offset (in seconds). -/
theorem C3_session_token_roundtrip (jwtSecret : List Nat)
    (hours now uid : Nat) (hsec : jwtSecret ≠ []) :
    ∃ t, generate_jwt_token jwtSecret hours now uid = .ok t ∧
      verify_jwt_token jwtSecret now t = .ok t.claims ∧
      t.claims.sub = uid ∧ t.claims.exp = t.claims.iat + hours * 3600 := by
  refine ⟨{ claims := { sub := uid, exp := now + hours * 3600, iat := now },
            sig := jwtSig jwtSecret
              { sub := uid, exp := now + hours * 3600, iat := now } },
          ?_, ?_, rfl, rfl⟩
  · unfold generate_jwt_token
    rw [if_neg hsec]
  · unfold verify_jwt_token
    rw [if_neg hsec]
    split_ifs with hs he
    · exact absurd rfl hs
    · have he' : now + hours * 3600 < now := he
      omega
    · rfl

/-- Witness for C3 at a concrete secret, hour offset, instant and id. -/
theorem C3_session_token_roundtrip_witness :
    ∃ t, generate_jwt_token [1] 24 1000 7 = .ok t ∧
      verify_jwt_token [1] 1000 t = .ok t.claims ∧
      t.claims.sub = 7 ∧ t.claims.exp = t.claims.iat + 24 * 3600 :=
  C3_session_token_roundtrip [1] 24 1000 7 (by decide)

/- ===== C4 ===== -/

/-- C4: against a provider answering pending three times then success,
the device flow succeeds on the fourth poll having slept three times at
the initial interval; against a provider answering slow_down once then
success, the single (final) wait is the initial interval plus 5. -/
theorem C4_device_flow_backoff (env1 env2 : DeviceEnv) (t1 t2 : List Nat)
    (p1 p2 : GithubProfile)
    (h1c : env1.github_device_client_id_set = true)
    (h1c' : env1.github_client_secret_set = true)
    (h1s0 : env1.script 0 = .errPending)
    (h1s1 : env1.script 1 = .errPending)
    (h1s2 : env1.script 2 = .errPending)
    (h1s3 : env1.script 3 = .token t1)
    (h1f : env1.userFetch t1 = .ok p1)
    (h1e : env1.encryption_key ≠ []) (h1j : env1.jwt_secret ≠ [])
    (h1sv : env1.saveFails = false)
    (h2c : env2.github_device_client_id_set = true)
    (h2c' : env2.github_client_secret_set = true)
    (h2s0 : env2.script 0 = .errSlowDown)
    (h2s1 : env2.script 1 = .token t2)
    (h2f : env2.userFetch t2 = .ok p2)
    (h2e : env2.encryption_key ≠ []) (h2j : env2.jwt_secret ≠ [])
    (h2sv : env2.saveFails = false) :
    ((∃ s, (verify_device_code env1).result = .ok s) ∧
      (verify_device_code env1).polls = 4 ∧
      (verify_device_code env1).sleeps =
        [initial_interval, initial_interval, initial_interval]) ∧
    ((∃ s, (verify_device_code env2).result = .ok s) ∧
      (verify_device_code env2).polls = 2 ∧
      (verify_device_code env2).sleeps = [initial_interval + 5]) := by
  have hc1 : ¬(¬ env1.github_device_client_id_set ∨
      ¬ env1.github_client_secret_set) := by simp [h1c, h1c']
  have hc2 : ¬(¬ env2.github_device_client_id_set ∨
      ¬ env2.github_client_secret_set) := by simp [h2c, h2c']
  obtain ⟨s1, st1, hup1⟩ := githubLoginUpsert_ok env1.encryption_key env1.encNonce
    env1.jwt_secret env1.jwt_expiration_hours env1.now env1.freshId env1.store
    t1 p1 h1e h1j
  obtain ⟨s2, st2, hup2⟩ := githubLoginUpsert_ok env2.encryption_key env2.encNonce
    env2.jwt_secret env2.jwt_expiration_hours env2.now env2.freshId env2.store
    t2 p2 h2e h2j
  have hrun1 : verify_device_code env1 =
      { result := .ok s1, store := st1,
        sleeps := (([] ++ [initial_interval]) ++ [initial_interval]) ++
          [initial_interval],
        polls := 0 + 1 + 1 + 1 + 1 } := by
    unfold verify_device_code
    rw [if_neg hc1]
    rw [show max_attempts = 19 + 1 from rfl,
      devicePollLoop_pending h1s0 19 initial_interval 0 []]
    rw [show (0 : Nat) + 1 = 1 from rfl,
      show (19 : Nat) = 18 + 1 from rfl,
      devicePollLoop_pending h1s1 18 initial_interval 1 ([] ++ [initial_interval])]
    rw [show (1 : Nat) + 1 = 2 from rfl,
      show (18 : Nat) = 17 + 1 from rfl,
      devicePollLoop_pending h1s2 17 initial_interval 2
        (([] ++ [initial_interval]) ++ [initial_interval])]
    rw [show (2 : Nat) + 1 = 3 from rfl,
      show (17 : Nat) = 16 + 1 from rfl,
      devicePollLoop_token h1s3 h1f 16 initial_interval 3
        ((([] ++ [initial_interval]) ++ [initial_interval]) ++ [initial_interval])]
    rw [h1sv, hup1]
  have hrun2 : verify_device_code env2 =
      { result := .ok s2, store := st2,
        sleeps := [] ++ [initial_interval + 5], polls := 0 + 1 + 1 } := by
    unfold verify_device_code
    rw [if_neg hc2]
    rw [show max_attempts = 19 + 1 from rfl,
      devicePollLoop_slowdown h2s0 19 initial_interval 0 []]
    rw [show (0 : Nat) + 1 = 1 from rfl,
      show (19 : Nat) = 18 + 1 from rfl,
      devicePollLoop_token h2s1 h2f 18 (initial_interval + 5) 1
        ([] ++ [initial_interval + 5])]
    rw [h2sv, hup2]
  refine ⟨⟨⟨s1, ?_⟩, ?_, ?_⟩, ⟨s2, ?_⟩, ?_, ?_⟩
  · rw [hrun1]
  · rw [hrun1]
  · rw [hrun1]
    simp
  · rw [hrun2]
  · rw [hrun2]
  · rw [hrun2]
    simp

/-- Witness for C4 at the two concrete scripted environments. -/
theorem C4_device_flow_backoff_witness :
    ((∃ s, (verify_device_code deviceEnvPending3).result = .ok s) ∧
      (verify_device_code deviceEnvPending3).polls = 4 ∧
      (verify_device_code deviceEnvPending3).sleeps =
        [initial_interval, initial_interval, initial_interval]) ∧
    ((∃ s, (verify_device_code deviceEnvSlowOnce).result = .ok s) ∧
      (verify_device_code deviceEnvSlowOnce).polls = 2 ∧
      (verify_device_code deviceEnvSlowOnce).sleeps = [initial_interval + 5]) :=
  C4_device_flow_backoff deviceEnvPending3 deviceEnvSlowOnce [7] [7]
    { id := 42, login := "alice", email := none }
    { id := 42, login := "alice", email := none }
    rfl rfl rfl rfl rfl rfl rfl (by decide) (by decide) rfl
    rfl rfl rfl rfl rfl (by decide) (by decide) rfl

/- ===== C5 ===== -/

/-- C5: against a provider that always answers pending, the device flow
terminates with the 408 timeout after exactly 20 polls (and 20 sleeps);
moreover no environment whatsoever makes it poll more than 20 times. -/
theorem C5_device_flow_bounded (env : DeviceEnv)
    (hc : env.github_device_client_id_set = true)
    (hc' : env.github_client_secret_set = true)
    (hp : ∀ n, env.script n = .errPending) :
    (verify_device_code env).result = .error .timeout408 ∧
    (verify_device_code env).polls = 20 ∧
    (verify_device_code env).sleeps.length = 20 ∧
    (∀ env' : DeviceEnv, (verify_device_code env').polls ≤ 20) := by
  have hcc : ¬(¬ env.github_device_client_id_set ∨
      ¬ env.github_client_secret_set) := by simp [hc, hc']
  have hmain := devicePollLoop_all_pending env hp max_attempts 0 initial_interval 0 []
  refine ⟨?_, ?_, ?_, ?_⟩
  · unfold verify_device_code
    rw [if_neg hcc, hmain]
  · unfold verify_device_code
    rw [if_neg hcc, hmain]
    rfl
  · unfold verify_device_code
    rw [if_neg hcc, hmain]
    simp [max_attempts]
  · intro env'
    unfold verify_device_code
    split
    · simp
    · exact le_trans
        (devicePollLoop_polls_le env' max_attempts 0 initial_interval 0 [])
        (by simp [max_attempts])

/-- Witness for C5 at the concrete always-pending environment. -/
theorem C5_device_flow_bounded_witness :
    (verify_device_code deviceEnvAllPending).result = .error .timeout408 ∧
    (verify_device_code deviceEnvAllPending).polls = 20 ∧
    (verify_device_code deviceEnvAllPending).sleeps.length = 20 ∧
    (∀ env' : DeviceEnv, (verify_device_code env').polls ≤ 20) :=
  C5_device_flow_bounded deviceEnvAllPending rfl rfl (fun _ => rfl)

/- ===== C6 ===== -/

theorem get_all_pages_loop_cont {α : Type} [DecidableEq α]
    {script : Nat → List α} {per_page page : Nat} (h : script page ≠ [])
    (hlen : ¬ (script page).length < per_page) (fuel : Nat) :
    get_all_pages_loop script per_page page (fuel + 1) =
      (script page ++ (get_all_pages_loop script per_page (page + 1) fuel).1,
        page :: (get_all_pages_loop script per_page (page + 1) fuel).2) := by
  simp [get_all_pages_loop, h, hlen]

theorem get_all_pages_loop_last {α : Type} [DecidableEq α]
    {script : Nat → List α} {per_page page : Nat} (h : script page ≠ [])
    (hlen : (script page).length < per_page) (fuel : Nat) :
    get_all_pages_loop script per_page page (fuel + 1) = (script page, [page]) := by
  simp [get_all_pages_loop, h, hlen]

/-- C6: a paginated fetch at fixed page size 100 that sees two full
pages and a 40-item page 3 returns the 240 items in page order, requests
exactly pages 1, 2 and 3 (never page 4) although max_pages is 10. -/
theorem C6_pagination_stops_on_short_page {α : Type} [DecidableEq α]
    (script : Nat → List α) (h1 : (script 1).length = 100)
    (h2 : (script 2).length = 100) (h3 : (script 3).length = 40) :
    get_all_pages script 10 = (script 1 ++ (script 2 ++ script 3), [1, 2, 3]) := by
  have hne1 : script 1 ≠ [] := by
    intro h
    rw [h] at h1
    simp at h1
  have hne2 : script 2 ≠ [] := by
    intro h
    rw [h] at h2
    simp at h2
  have hne3 : script 3 ≠ [] := by
    intro h
    rw [h] at h3
    simp at h3
  have hl1 : ¬ (script 1).length < 100 := by omega
  have hl2 : ¬ (script 2).length < 100 := by omega
  have hl3 : (script 3).length < 100 := by omega
  unfold get_all_pages
  rw [show (10 : Nat) = 9 + 1 from rfl, get_all_pages_loop_cont hne1 hl1 9,
    show (1 : Nat) + 1 = 2 from rfl, show (9 : Nat) = 8 + 1 from rfl,
    get_all_pages_loop_cont hne2 hl2 8,
    show (2 : Nat) + 1 = 3 from rfl, show (8 : Nat) = 7 + 1 from rfl,
    get_all_pages_loop_last hne3 hl3 7]

/-- Witness for C6 at a concrete scripted endpoint. -/
theorem C6_pagination_stops_on_short_page_witness :
    get_all_pages (fun p => if p = 3 then List.range 40 else List.range 100) 10 =
      (List.range 100 ++ (List.range 100 ++ List.range 40), [1, 2, 3]) :=
  C6_pagination_stops_on_short_page
    (fun p => if p = 3 then List.range 40 else List.range 100)
    (by simp) (by simp) (by simp)

/- ===== sorting and fan-out lemmas ===== -/

theorem sortDescBy_perm {α : Type} (key : α → Nat) (l : List α) :
    (sortDescBy key l).Perm l :=
  List.perm_insertionSort _ l

theorem sortDescBy_sorted {α : Type} (key : α → Nat) (l : List α) :
    (sortDescBy key l).Sorted (fun a b => key b ≤ key a) := by
  haveI : IsTotal α (fun a b => key b ≤ key a) :=
    ⟨fun a b => Nat.le_total (key b) (key a)⟩
  haveI : IsTrans α (fun a b => key b ≤ key a) :=
    ⟨fun a b c hab hbc => Nat.le_trans hbc hab⟩
  exact List.sorted_insertionSort _ l

theorem pairwise_keylt_of_sorted_nodup {α : Type} (key : α → Nat) {l : List α}
    (hs : l.Sorted (fun a b => key b ≤ key a)) (hn : (l.map key).Nodup) :
    l.Pairwise (fun a b => key b < key a) := by
  have hne : l.Pairwise (fun a b => key a ≠ key b) := List.pairwise_map.mp hn
  exact (List.Pairwise.and hs hne).imp
    (fun h => Nat.lt_of_le_of_ne h.1 (Ne.symm h.2))

theorem eq_of_perm_of_pairwise_keylt {α : Type} (key : α → Nat) :
    ∀ l1 l2 : List α, l1.Perm l2 → l1.Pairwise (fun a b => key b < key a) →
      l2.Pairwise (fun a b => key b < key a) → l1 = l2 := by
  intro l1
  induction l1 with
  | nil =>
    intro l2 h _ _
    exact (h.symm.eq_nil).symm
  | cons a t ih =>
    intro l2 h h1 h2
    cases l2 with
    | nil => exact absurd h.eq_nil (by simp)
    | cons b t2 =>
      by_cases hab : a = b
      · subst hab
        rw [ih t2 h.cons_inv h1.of_cons h2.of_cons]
      · exfalso
        have hb1 : b ∈ a :: t := h.symm.subset (List.mem_cons_self b t2)
        have ha2 : a ∈ b :: t2 := h.subset (List.mem_cons_self a t)
        have hbt : b ∈ t := by
          rcases List.mem_cons.mp hb1 with h' | h'
          · exact absurd h'.symm hab
          · exact h'
        have hat2 : a ∈ t2 := by
          rcases List.mem_cons.mp ha2 with h' | h'
          · exact absurd h' hab
          · exact h'
        have hk1 : key b < key a := (List.pairwise_cons.mp h1).1 b hbt
        have hk2 : key a < key b := (List.pairwise_cons.mp h2).1 a hat2
        omega

theorem collectRepoResults_eq_flatten {α : Type}
    (fetch : String → Except Unit (List α)) (repos : List RepoInfo) :
    collectRepoResults fetch repos =
      (repos.map (fun r =>
        match fetch r.full_name with
        | .error _ => []
        | .ok items => items)).flatten := by
  unfold collectRepoResults
  suffices h : ∀ acc : List α, repos.foldl
      (fun acc r =>
        match fetch r.full_name with
        | .error _ => acc
        | .ok items => acc ++ items) acc =
      acc ++ (repos.map (fun r =>
        match fetch r.full_name with
        | .error _ => []
        | .ok items => items)).flatten by
    simpa using h []
  induction repos with
  | nil =>
    intro acc
    simp
  | cons r rs ih =>
    intro acc
    cases hf : fetch r.full_name with
    | error e => simp [hf, ih]
    | ok items => simp [hf, ih, List.append_assoc]

theorem collectRepoResults_perm {α : Type}
    (fetch : String → Except Unit (List α)) {repos repos' : List RepoInfo}
    (h : repos.Perm repos') :
    (collectRepoResults fetch repos).Perm (collectRepoResults fetch repos') := by
  rw [collectRepoResults_eq_flatten, collectRepoResults_eq_flatten]
  exact (h.map _).flatten

/- ===== C7 ===== -/

/-- C7: with three repositories of which the second raises a network
error on its commit fetch, the cross-repository `get_commits` succeeds,
returning exactly the commits of repositories 1 and 3 (as a
permutation), sorted descending by commit date; no error reaches the
caller. -/
theorem C7_fanout_partial_failure (secret encTok tok : List Nat)
    (r1 r2 r3 : RepoInfo) (fetch : String → Except Unit (List Commit))
    (c1 c3 : List Commit) (e : Unit) (per_page : Nat)
    (hdec : decrypt_token secret encTok = .ok tok)
    (hf1 : fetch r1.full_name = .ok c1)
    (hf2 : fetch r2.full_name = .error e)
    (hf3 : fetch r3.full_name = .ok c3)
    (hlen : c1.length + c3.length ≤ per_page) :
    ∃ out, get_commits_all_repos secret encTok (.ok [r1, r2, r3]) fetch 1
        per_page = .ok out ∧
      out.Perm (c1 ++ c3) ∧ out.Sorted (fun a b => b.date ≤ a.date) := by
  have hcollect : collectRepoResults fetch [r1, r2, r3] = c1 ++ c3 := by
    simp [collectRepoResults, hf1, hf2, hf3]
  have hplen : (sortDescBy (fun c => c.date) (c1 ++ c3)).length ≤ per_page := by
    rw [(sortDescBy_perm (fun c => c.date) (c1 ++ c3)).length_eq]
    simp
    omega
  refine ⟨sortDescBy (fun c => c.date) (c1 ++ c3), ?_,
    sortDescBy_perm (fun c => c.date) (c1 ++ c3),
    sortDescBy_sorted (fun c => c.date) (c1 ++ c3)⟩
  unfold get_commits_all_repos
  simp only [hdec, hcollect]
  congr 1
  rw [show (1 - 1) * per_page = 0 from by omega, List.drop_zero,
    List.take_of_length_le hplen]

/-- Witness for C7 at a concrete scripted environment. -/
theorem C7_fanout_partial_failure_witness :
    ∃ out, get_commits_all_repos [1] encTokC7
        (.ok [{ full_name := "a" }, { full_name := "b" }, { full_name := "c" }])
        fetchC7 1 30 = .ok out ∧
      out.Perm ([{ sha := 1, date := 10 }] ++ [{ sha := 2, date := 20 }]) ∧
      out.Sorted (fun a b => b.date ≤ a.date) :=
  C7_fanout_partial_failure [1] encTokC7 [5]
    { full_name := "a" } { full_name := "b" } { full_name := "c" } fetchC7
    [{ sha := 1, date := 10 }] [{ sha := 2, date := 20 }] () 30
    rfl rfl rfl rfl (by decide)

/- ===== C8 ===== -/

/-- C8 counterexample: two repositories whose single pull requests carry
the same `updated_at` timestamp.  The merged output is not strictly
descending, and reversing the repository fetch order changes the output,
so the ordering is not independent of fetch order. -/
theorem C8_counterexample_ties :
    get_pull_requests_all_repos [1] encTokC7
        (.ok [{ full_name := "a" }, { full_name := "b" }]) fetchTie 1 30 =
      .ok [{ number := 1, updated_at := 50 }, { number := 2, updated_at := 50 }] ∧
    get_pull_requests_all_repos [1] encTokC7
        (.ok [{ full_name := "b" }, { full_name := "a" }]) fetchTie 1 30 =
      .ok [{ number := 2, updated_at := 50 }, { number := 1, updated_at := 50 }] ∧
    ¬ ([{ number := 1, updated_at := 50 }, { number := 2, updated_at := 50 }] :
        List PullRequest).Pairwise (fun a b => b.updated_at < a.updated_at) ∧
    get_pull_requests_all_repos [1] encTokC7
        (.ok [{ full_name := "a" }, { full_name := "b" }]) fetchTie 1 30 ≠
      get_pull_requests_all_repos [1] encTokC7
        (.ok [{ full_name := "b" }, { full_name := "a" }]) fetchTie 1 30 := by
  refine ⟨rfl, rfl, ?_, ?_⟩
  · intro hp
    have h50 : (50 : Nat) < 50 :=
      (List.pairwise_cons.mp hp).1 { number := 2, updated_at := 50 }
        (List.mem_cons_self _ _)
    omega
  · intro h
    rw [show get_pull_requests_all_repos [1] encTokC7
        (.ok [{ full_name := "a" }, { full_name := "b" }]) fetchTie 1 30 =
      .ok [{ number := 1, updated_at := 50 }, { number := 2, updated_at := 50 }]
      from rfl] at h
    rw [show get_pull_requests_all_repos [1] encTokC7
        (.ok [{ full_name := "b" }, { full_name := "a" }]) fetchTie 1 30 =
      .ok [{ number := 2, updated_at := 50 }, { number := 1, updated_at := 50 }]
      from rfl] at h
    simp at h

/-- C8 (amended): the cross-repository output is the page window over a
non-increasing arrangement of the merged per-repository results; when
the merged items carry pairwise distinct timestamps, that arrangement is
strictly descending and the output is independent of the repository
fetch order. -/
theorem C8_merge_sort_window (secret encTok tok : List Nat)
    (repos repos' : List RepoInfo)
    (fetch : String → Except Unit (List PullRequest)) (page per_page : Nat)
    (hdec : decrypt_token secret encTok = .ok tok)
    (hperm : repos.Perm repos')
    (hnodup : ((collectRepoResults fetch repos).map
      (fun p : PullRequest => p.updated_at)).Nodup) :
    ∃ sortedAll : List PullRequest,
      sortedAll.Perm (collectRepoResults fetch repos) ∧
      sortedAll.Pairwise (fun a b => b.updated_at < a.updated_at) ∧
      get_pull_requests_all_repos secret encTok (.ok repos) fetch page
        per_page = .ok ((sortedAll.drop ((page - 1) * per_page)).take per_page) ∧
      get_pull_requests_all_repos secret encTok (.ok repos') fetch page
        per_page =
      get_pull_requests_all_repos secret encTok (.ok repos) fetch page
        per_page := by
  have hpw : (sortDescBy (fun p : PullRequest => p.updated_at)
      (collectRepoResults fetch repos)).Pairwise
      (fun a b => b.updated_at < a.updated_at) := by
    apply pairwise_keylt_of_sorted_nodup (fun p : PullRequest => p.updated_at)
    · exact sortDescBy_sorted (fun p : PullRequest => p.updated_at) _
    · exact ((sortDescBy_perm (fun p : PullRequest => p.updated_at)
        (collectRepoResults fetch repos)).map (fun p : PullRequest => p.updated_at)).nodup_iff.mpr
        hnodup
  refine ⟨sortDescBy (fun p : PullRequest => p.updated_at) (collectRepoResults fetch repos),
    sortDescBy_perm (fun p : PullRequest => p.updated_at) _, hpw, ?_, ?_⟩
  · unfold get_pull_requests_all_repos
    simp only [hdec]
  · have hcp : (collectRepoResults fetch repos').Perm
        (collectRepoResults fetch repos) :=
      collectRepoResults_perm fetch hperm.symm
    have hnodup' : ((collectRepoResults fetch repos').map
        (fun p : PullRequest => p.updated_at)).Nodup :=
      ((hcp.map (fun p : PullRequest => p.updated_at)).nodup_iff).mpr hnodup
    have hpw' : (sortDescBy (fun p : PullRequest => p.updated_at)
        (collectRepoResults fetch repos')).Pairwise
        (fun a b => b.updated_at < a.updated_at) := by
      apply pairwise_keylt_of_sorted_nodup (fun p : PullRequest => p.updated_at)
      · exact sortDescBy_sorted (fun p : PullRequest => p.updated_at) _
      · exact ((sortDescBy_perm (fun p : PullRequest => p.updated_at)
          (collectRepoResults fetch repos')).map
          (fun p : PullRequest => p.updated_at)).nodup_iff.mpr hnodup'
    have hsp : (sortDescBy (fun p : PullRequest => p.updated_at)
        (collectRepoResults fetch repos')).Perm
        (sortDescBy (fun p : PullRequest => p.updated_at) (collectRepoResults fetch repos)) :=
      ((sortDescBy_perm (fun p : PullRequest => p.updated_at) _).trans hcp).trans
        (sortDescBy_perm (fun p : PullRequest => p.updated_at) _).symm
    have heq : sortDescBy (fun p : PullRequest => p.updated_at)
        (collectRepoResults fetch repos') =
        sortDescBy (fun p : PullRequest => p.updated_at) (collectRepoResults fetch repos) :=
      eq_of_perm_of_pairwise_keylt (fun p : PullRequest => p.updated_at) _ _ hsp hpw' hpw
    unfold get_pull_requests_all_repos
    simp only [hdec, heq]

/-- Witness for the amended C8 at a concrete environment with distinct
timestamps and a reversed repository order. -/
theorem C8_merge_sort_window_witness :
    ∃ sortedAll : List PullRequest,
      sortedAll.Perm (collectRepoResults fetchDistinct
        [{ full_name := "a" }, { full_name := "b" }]) ∧
      sortedAll.Pairwise (fun a b => b.updated_at < a.updated_at) ∧
      get_pull_requests_all_repos [1] encTokC7
        (.ok [{ full_name := "a" }, { full_name := "b" }]) fetchDistinct 1 30 =
        .ok ((sortedAll.drop ((1 - 1) * 30)).take 30) ∧
      get_pull_requests_all_repos [1] encTokC7
        (.ok [{ full_name := "b" }, { full_name := "a" }]) fetchDistinct 1 30 =
      get_pull_requests_all_repos [1] encTokC7
        (.ok [{ full_name := "a" }, { full_name := "b" }]) fetchDistinct 1 30 :=
  C8_merge_sort_window [1] encTokC7 [5]
    [{ full_name := "a" }, { full_name := "b" }]
    [{ full_name := "b" }, { full_name := "a" }]
    fetchDistinct 1 30 rfl (by decide) (by decide)

/- ===== C9 / C10 ===== -/

theorem generate_jwt_token_sub {js : List Nat} {h n x : Nat} {t : JwtToken}
    (hg : generate_jwt_token js h n x = .ok t) : t.claims.sub = x := by
  unfold generate_jwt_token at hg
  by_cases hjs : js = []
  · rw [if_pos hjs] at hg
    exact absurd hg (by simp)
  · rw [if_neg hjs] at hg
    have h' : ({ claims := { sub := x, exp := n + h * 3600, iat := n },
                 sig := jwtSig js
                          { sub := x, exp := n + h * 3600, iat := n } } :
        JwtToken) = t := by
      injection hg
    rw [← h']

theorem mem_saveUpdate {store : List StoredUser} {user v : StoredUser}
    (h : v ∈ saveUpdate store user) : v = user ∨ v ∈ store := by
  unfold saveUpdate at h
  rcases List.mem_map.mp h with ⟨w, hw, hveq⟩
  by_cases hid : (w._id == user._id) = true
  · rw [if_pos hid] at hveq
    exact Or.inl hveq.symm
  · rw [if_neg hid] at hveq
    rw [← hveq]
    exact Or.inr hw

theorem githubLoginUpsert_spec (encKey : List Nat) (nonce : Nat)
    (jwtSecret : List Nat) (hours now freshId : Nat) (saveFails : Bool)
    (store : List StoredUser) (accessToken : List Nat)
    (profile : GithubProfile) :
    (∀ s, (githubLoginUpsert encKey nonce jwtSecret hours now freshId saveFails
        store accessToken profile).1 = .ok s →
      ∃ u ∈ (githubLoginUpsert encKey nonce jwtSecret hours now freshId
          saveFails store accessToken profile).2,
        u._id = s.userId ∧ s.access_token.claims.sub = u._id ∧
        u.github_access_token ≠ none) ∧
    (∀ u ∈ (githubLoginUpsert encKey nonce jwtSecret hours now freshId saveFails
        store accessToken profile).2,
      u ∈ store ∨ u.github_access_token ≠ none) := by
  cases henc : encrypt_token encKey nonce accessToken with
  | error e =>
    have hrun : githubLoginUpsert encKey nonce jwtSecret hours now freshId
        saveFails store accessToken profile =
        (.error .encryptionError, store) := by
      simp [githubLoginUpsert, henc]
    rw [hrun]
    exact ⟨fun s h => absurd h (by simp), fun u hu => Or.inl hu⟩
  | ok encTok =>
    cases saveFails with
    | true =>
      have hrun : githubLoginUpsert encKey nonce jwtSecret hours now freshId
          true store accessToken profile = (.error .dbError, store) := by
        simp [githubLoginUpsert, henc]
      rw [hrun]
      exact ⟨fun s h => absurd h (by simp), fun u hu => Or.inl hu⟩
    | false =>
      cases hfind : find_by_github_id store profile.id with
      | some u0 =>
        cases hg : generate_jwt_token jwtSecret hours now u0._id with
        | error e2 =>
          have hrun : githubLoginUpsert encKey nonce jwtSecret hours now freshId
              false store accessToken profile =
              (.error e2, saveUpdate store
                { u0 with
                    username := profile.login,
                    email := profile.email,
                    github_access_token := some encTok }) := by
            simp [githubLoginUpsert, henc, hfind, hg]
          rw [hrun]
          refine ⟨fun s h => absurd h (by simp), fun u hu => ?_⟩
          rcases mem_saveUpdate hu with h' | h'
          · right
            rw [h']
            simp
          · exact Or.inl h'
        | ok t =>
          have hrun : githubLoginUpsert encKey nonce jwtSecret hours now freshId
              false store accessToken profile =
              (.ok { access_token := t,
                     expires_in := hours * 3600,
                     userId := u0._id,
                     github_id := u0.github_id,
                     username := profile.login,
                     email := profile.email },
                saveUpdate store
                  { u0 with
                      username := profile.login,
                      email := profile.email,
                      github_access_token := some encTok }) := by
            simp [githubLoginUpsert, henc, hfind, hg]
          rw [hrun]
          constructor
          · intro s h
            have hs : ({ access_token := t,
                         expires_in := hours * 3600,
                         userId := u0._id,
                         github_id := u0.github_id,
                         username := profile.login,
                         email := profile.email } :
                SessionIssued) = s := by
              injection h
            refine ⟨{ u0 with
                        username := profile.login,
                        email := profile.email,
                        github_access_token := some encTok },
              ?_, ?_, ?_, by simp⟩
            · apply List.mem_map.mpr
              exact ⟨u0, List.mem_of_find?_eq_some hfind, by simp⟩
            · rw [← hs]
            · rw [← hs]
              exact generate_jwt_token_sub hg
          · intro u hu
            rcases mem_saveUpdate hu with h' | h'
            · right
              rw [h']
              simp
            · exact Or.inl h'
      | none =>
        cases hg : generate_jwt_token jwtSecret hours now freshId with
        | error e2 =>
          have hrun : githubLoginUpsert encKey nonce jwtSecret hours now freshId
              false store accessToken profile =
              (.error e2, saveInsert store
                { _id := freshId,
                  github_id := profile.id,
                  username := profile.login,
                  email := profile.email,
                  github_access_token := some encTok }) := by
            simp [githubLoginUpsert, henc, hfind, hg]
          rw [hrun]
          refine ⟨fun s h => absurd h (by simp), fun u hu => ?_⟩
          rcases List.mem_append.mp hu with h' | h'
          · exact Or.inl h'
          · right
            rw [List.mem_singleton.mp h']
            simp
        | ok t =>
          have hrun : githubLoginUpsert encKey nonce jwtSecret hours now freshId
              false store accessToken profile =
              (.ok { access_token := t,
                     expires_in := hours * 3600,
                     userId := freshId,
                     github_id := profile.id,
                     username := profile.login,
                     email := profile.email },
                saveInsert store
                  { _id := freshId,
                    github_id := profile.id,
                    username := profile.login,
                    email := profile.email,
                    github_access_token := some encTok }) := by
            simp [githubLoginUpsert, henc, hfind, hg]
          rw [hrun]
          constructor
          · intro s h
            have hs : ({ access_token := t,
                         expires_in := hours * 3600,
                         userId := freshId,
                         github_id := profile.id,
                         username := profile.login,
                         email := profile.email } :
                SessionIssued) = s := by
              injection h
            refine ⟨{ _id := freshId,
                      github_id := profile.id,
                      username := profile.login,
                      email := profile.email,
                      github_access_token := some encTok },
              ?_, ?_, ?_, by simp⟩
            · exact List.mem_append.mpr (Or.inr (List.mem_singleton.mpr rfl))
            · rw [← hs]
            · rw [← hs]
              exact generate_jwt_token_sub hg
          · intro u hu
            rcases List.mem_append.mp hu with h' | h'
            · exact Or.inl h'
            · right
              rw [List.mem_singleton.mp h']
              simp

theorem handle_github_callback_spec (env : CallbackEnv) (code : String)
    (st : Option String) :
    (∀ s, (handle_github_callback env code st).1 = .ok s →
      ∃ u ∈ (handle_github_callback env code st).2, u._id = s.userId ∧
        s.access_token.claims.sub = u._id ∧ u.github_access_token ≠ none) ∧
    (∀ u ∈ (handle_github_callback env code st).2,
      u ∈ env.store ∨ u.github_access_token ≠ none) := by
  by_cases hcfg : ¬ env.github_client_id_set ∨ ¬ env.github_client_secret_set
  · have hrun : handle_github_callback env code st =
        (.error .config500, env.store) := by
      unfold handle_github_callback
      rw [if_pos hcfg]
    rw [hrun]
    exact ⟨fun s h => absurd h (by simp), fun u hu => Or.inl hu⟩
  · cases hte : env.tokenExchange code with
    | netError =>
      have hrun : handle_github_callback env code st =
          (.error .gateway502, env.store) := by
        unfold handle_github_callback
        rw [if_neg hcfg]
        simp [hte]
      rw [hrun]
      exact ⟨fun s h => absurd h (by simp), fun u hu => Or.inl hu⟩
    | errorField c =>
      have hrun : handle_github_callback env code st =
          (.error .badRequest400, env.store) := by
        unfold handle_github_callback
        rw [if_neg hcfg]
        simp [hte]
      rw [hrun]
      exact ⟨fun s h => absurd h (by simp), fun u hu => Or.inl hu⟩
    | missingToken =>
      have hrun : handle_github_callback env code st =
          (.error .badRequest400, env.store) := by
        unfold handle_github_callback
        rw [if_neg hcfg]
        simp [hte]
      rw [hrun]
      exact ⟨fun s h => absurd h (by simp), fun u hu => Or.inl hu⟩
    | token t =>
      cases hf : env.userFetch t with
      | error e =>
        have hrun : handle_github_callback env code st =
            (.error .gateway502, env.store) := by
          unfold handle_github_callback
          rw [if_neg hcfg]
          simp [hte, hf]
        rw [hrun]
        exact ⟨fun s h => absurd h (by simp), fun u hu => Or.inl hu⟩
      | ok profile =>
        have hrun : handle_github_callback env code st =
            githubLoginUpsert env.encryption_key env.encNonce env.jwt_secret
              env.jwt_expiration_hours env.now env.freshId env.saveFails
              env.store t profile := by
          unfold handle_github_callback
          rw [if_neg hcfg]
          simp [hte, hf]
        rw [hrun]
        exact githubLoginUpsert_spec env.encryption_key env.encNonce
          env.jwt_secret env.jwt_expiration_hours env.now env.freshId
          env.saveFails env.store t profile

theorem devicePollLoop_spec (denv : DeviceEnv) :
    ∀ fuel attempt interval polls : Nat, ∀ sleeps : List Nat,
      (∀ s, (devicePollLoop denv fuel attempt interval polls sleeps).result =
          .ok s →
        ∃ u ∈ (devicePollLoop denv fuel attempt interval polls sleeps).store,
          u._id = s.userId ∧ s.access_token.claims.sub = u._id ∧
          u.github_access_token ≠ none) ∧
      (∀ u ∈ (devicePollLoop denv fuel attempt interval polls sleeps).store,
        u ∈ denv.store ∨ u.github_access_token ≠ none) := by
  intro fuel
  induction fuel with
  | zero =>
    intro attempt interval polls sleeps
    exact ⟨fun s h => absurd h (by simp [devicePollLoop]),
      fun u hu => Or.inl (by simpa [devicePollLoop] using hu)⟩
  | succ n ih =>
    intro attempt interval polls sleeps
    cases hs : denv.script attempt with
    | netError =>
      simp only [devicePollLoop, hs]
      exact ⟨fun s h => absurd h (by simp), fun u hu => Or.inl hu⟩
    | errPending =>
      rw [devicePollLoop_pending hs n interval polls sleeps]
      exact ih (attempt + 1) interval (polls + 1) (sleeps ++ [interval])
    | errSlowDown =>
      rw [devicePollLoop_slowdown hs n interval polls sleeps]
      exact ih (attempt + 1) (interval + 5) (polls + 1) (sleeps ++ [interval + 5])
    | errExpired =>
      simp only [devicePollLoop, hs]
      exact ⟨fun s h => absurd h (by simp), fun u hu => Or.inl hu⟩
    | errOther c =>
      simp only [devicePollLoop, hs]
      exact ⟨fun s h => absurd h (by simp), fun u hu => Or.inl hu⟩
    | missingToken =>
      simp only [devicePollLoop, hs]
      exact ⟨fun s h => absurd h (by simp), fun u hu => Or.inl hu⟩
    | token t =>
      cases hf : denv.userFetch t with
      | error e =>
        simp only [devicePollLoop, hs, hf]
        exact ⟨fun s h => absurd h (by simp), fun u hu => Or.inl hu⟩
      | ok profile =>
        simp only [devicePollLoop, hs, hf]
        exact githubLoginUpsert_spec denv.encryption_key denv.encNonce
          denv.jwt_secret denv.jwt_expiration_hours denv.now denv.freshId
          denv.saveFails denv.store t profile

theorem verify_device_code_spec (denv : DeviceEnv) :
    (∀ s, (verify_device_code denv).result = .ok s →
      ∃ u ∈ (verify_device_code denv).store, u._id = s.userId ∧
        s.access_token.claims.sub = u._id ∧ u.github_access_token ≠ none) ∧
    (∀ u ∈ (verify_device_code denv).store,
      u ∈ denv.store ∨ u.github_access_token ≠ none) := by
  unfold verify_device_code
  by_cases hcfg : ¬ denv.github_device_client_id_set ∨
      ¬ denv.github_client_secret_set
  · rw [if_pos hcfg]
    exact ⟨fun s h => absurd h (by simp), fun u hu => Or.inl hu⟩
  · rw [if_neg hcfg]
    exact devicePollLoop_spec denv max_attempts 0 initial_interval 0 []

/-- C9: each OAuth flow call is atomic at the user-visible level: when
it succeeds, the session subject is the id of a stored account that
holds the (encrypted) provider token; when it fails, the result carries
no session; and in every outcome, any account the flow wrote (anything
beyond the pre-existing store) carries a stored provider token, so no
account without a token and no session without a stored account is ever
exposed. -/
theorem C9_flow_atomicity (env : CallbackEnv) (denv : DeviceEnv)
    (code : String) (st : Option String) :
    (∀ s, (handle_github_callback env code st).1 = .ok s →
      ∃ u ∈ (handle_github_callback env code st).2, u._id = s.userId ∧
        s.access_token.claims.sub = u._id ∧ u.github_access_token ≠ none) ∧
    (∀ u ∈ (handle_github_callback env code st).2,
      u ∈ env.store ∨ u.github_access_token ≠ none) ∧
    (∀ s, (verify_device_code denv).result = .ok s →
      ∃ u ∈ (verify_device_code denv).store, u._id = s.userId ∧
        s.access_token.claims.sub = u._id ∧ u.github_access_token ≠ none) ∧
    (∀ u ∈ (verify_device_code denv).store,
      u ∈ denv.store ∨ u.github_access_token ≠ none) := by
  obtain ⟨h1, h2⟩ := handle_github_callback_spec env code st
  obtain ⟨h3, h4⟩ := verify_device_code_spec denv
  exact ⟨h1, h2, h3, h4⟩

/-- Witness for C9: at a concrete all-success environment the callback
issues the concrete session and its subject is a stored account holding
the encrypted token. -/
theorem C9_flow_atomicity_witness :
    ∃ u ∈ (handle_github_callback callbackEnvOk "code" none).2,
      u._id = sessionC9.userId ∧
      sessionC9.access_token.claims.sub = u._id ∧
      u.github_access_token ≠ none :=
  (C9_flow_atomicity callbackEnvOk deviceEnvPending3 "code" none).1
    sessionC9 rfl

/-- C10: `handle_github_callback` never reads or validates its CSRF
state argument: for every provider behaviour, any two state values
(present or absent) yield identical outcomes and store effects, so no
server-side state check occurs in this operation. -/
theorem C10_callback_ignores_state (env : CallbackEnv) (code : String)
    (s1 s2 : Option String) :
    handle_github_callback env code s1 = handle_github_callback env code s2 :=
  rfl
